import Mathlib

/-!
Shallow embedding of `fastapi_users_db_sqlalchemy/__init__.py` (version 4.0.0).

The adapter `SQLAlchemyUserDatabase` is a thin wrapper around an async
SQLAlchemy session.  We embed it as pure functions over an explicit store
state `DB` holding the rows of the `user` and `oauth_account` tables.
Machine-level points of the model:

* Identifiers are `Nat`.  The source parameterises the tables over an
  identifier type `ID` (UUID in the reference schema, default `uuid.uuid4`);
  the only property used is equality and fresh generation, so default-id
  generation is modelled by an explicit `fid` argument (theorems that need
  freshness state it as a hypothesis).
* The SQLAlchemy declarative constructor `self.user_table(**create_dict)`
  raises `TypeError` on a keyword that is not an attribute of the model,
  before the session is touched; a field mapping is therefore embedded as a
  record of optional known fields plus the list of its unknown keys.
* `Column(..., unique=True)` (line 25, `email`) is a plain SQL UNIQUE
  constraint: it compares stored values exactly (it is not a lower-cased /
  case-insensitive index).  Commit of a violating row fails with an
  integrity error and the transaction is rolled back, leaving the store
  unchanged.
* `ForeignKey("user.id", ondelete="cascade")` (line 58): deleting a user row
  also deletes the oauth-account rows whose `user_id` references it.
* Every operation records the session interactions it performs
  (execute / add / commit / delete / refresh) in a `List SessOp` log, in
  order, so that "raises before any interaction with the session" is the
  statement that the log is empty.
-/

/-- A row of the `user` table: columns of `SQLAlchemyBaseUserTable`
(lines 19-29 of the source). -/
structure UserRow where
  id : Nat
  email : String
  hashed_password : String
  is_active : Bool
  is_superuser : Bool
  is_verified : Bool
  deriving DecidableEq, Repr

/-- A row of the `oauth_account` table: columns of
`SQLAlchemyBaseOAuthAccountTable` plus the `user_id` foreign key of the
UUID variant (lines 39-58 of the source). -/
structure OAuthAccountRow where
  id : Nat
  oauth_name : String
  access_token : String
  expires_at : Option Int
  refresh_token : Option String
  account_id : String
  account_email : String
  user_id : Nat
  deriving DecidableEq, Repr

/-- The backing store: the rows of the two tables, in insertion order
(a plain table scan returns rows in this order). -/
structure DB where
  users : List UserRow
  oauth_accounts : List OAuthAccountRow
  deriving DecidableEq, Repr

/-- The empty store. -/
def DB.empty : DB := { users := [], oauth_accounts := [] }

/-- One interaction with the SQLAlchemy session: `session.execute`,
`session.add`, `session.commit`, `session.delete`, `session.refresh`. -/
inductive SessOp where
  | execute
  | add
  | commit
  | delete
  | refresh
  deriving DecidableEq, Repr

/-- Errors surfaced by the adapter: `NotImplementedError` for OAuth
operations on an adapter built without an OAuth table, Python `TypeError`
(with the offending keyword) from the declarative constructor, and the
storage layer's integrity errors (NOT NULL / UNIQUE / FOREIGN KEY
violations), which the adapter passes through unchanged. -/
inductive AdapterError where
  | notImplementedError
  | typeError (kw : String)
  | integrityError
  deriving DecidableEq, Repr

/-- The adapter's construction-time state (`__init__`, lines 76-84): only
the presence of `oauth_account_table` matters for behaviour, the session
and the user table type being fixed by the embedding. -/
structure Adapter where
  oauth_account_table : Option Unit
  deriving DecidableEq, Repr

/-- `func.lower`, the SQL LOWER function applied on both sides of the
`get_by_email` comparison (line 92): each character lower-cased (the
behaviour of `String.toLower`, written over the character data so that it
evaluates by reduction). -/
def func.lower (s : String) : String := String.mk (s.data.map Char.toLower)

/-- A `create_dict` / `update_dict` for the user table: the optional known
fields, plus the keys that are not attributes of the model
(`unknown_keys`). -/
structure UserDict where
  id : Option Nat := none
  email : Option String := none
  hashed_password : Option String := none
  is_active : Option Bool := none
  is_superuser : Option Bool := none
  is_verified : Option Bool := none
  unknown_keys : List String := []
  deriving DecidableEq, Repr

/-- A `create_dict` / `update_dict` for the oauth-account table.  The two
nullable columns are doubly optional: absent from the mapping, or present
with a (possibly NULL) value. -/
structure OAuthDict where
  id : Option Nat := none
  oauth_name : Option String := none
  access_token : Option String := none
  expires_at : Option (Option Int) := none
  refresh_token : Option (Option String) := none
  account_id : Option String := none
  account_email : Option String := none
  unknown_keys : List String := []
  deriving DecidableEq, Repr

namespace SQLAlchemyUserDatabase

/-- `_get_user` (lines 160-166): `results.first()` on the rows produced by
the statement; `None` when there is no row, otherwise the entity carried by
the first row. -/
def get_user (rows : List UserRow) : Option UserRow :=
  match rows.head? with
  | none => none
  | some u => some u

/-- `get` (lines 86-88): rows where `user.id == id`, passed to `_get_user`. -/
def get (a : Adapter) (db : DB) (id : Nat) : Option UserRow × List SessOp :=
  let rows := db.users.filter fun v => v.id == id
  (get_user rows, [SessOp.execute])

/-- `get_by_email` (lines 90-94): rows where
`lower(user.email) == lower(email)`, passed to `_get_user`. -/
def get_by_email (a : Adapter) (db : DB) (email : String) :
    Option UserRow × List SessOp :=
  let rows := db.users.filter fun v => func.lower v.email == func.lower email
  (get_user rows, [SessOp.execute])

/-- `get_by_oauth_account` (lines 96-108): raises `NotImplementedError`
when the adapter has no OAuth table; otherwise joins `user` to
`oauth_account` on the `user_id` foreign key, filters on provider name and
provider account id, and selects the user entities. -/
def get_by_oauth_account (a : Adapter) (db : DB) (oauth : String)
    (account_id : String) : Except AdapterError (Option UserRow) × List SessOp :=
  match a.oauth_account_table with
  | none => (.error .notImplementedError, [])
  | some _ =>
    let rows := db.users.flatMap fun u =>
      (db.oauth_accounts.filter fun acc =>
        acc.user_id == u.id && acc.oauth_name == oauth &&
          acc.account_id == account_id).map fun _ => u
    (.ok (get_user rows), [SessOp.execute])

/-- Flush-time resolution of a constructed user: column defaults
`is_active=True`, `is_superuser=False`, `is_verified=False` (lines 27-29),
identifier default (fresh `fid`, line 36); missing `email` or
`hashed_password` violates NOT NULL (lines 25-26). -/
def resolve_user (d : UserDict) (fid : Nat) : Except AdapterError UserRow :=
  match d.email, d.hashed_password with
  | some e, some hp =>
      .ok { id := d.id.getD fid, email := e, hashed_password := hp,
            is_active := d.is_active.getD true,
            is_superuser := d.is_superuser.getD false,
            is_verified := d.is_verified.getD false }
  | _, _ => .error .integrityError

/-- Commit of an INSERT into `user`: the primary key and the UNIQUE
constraint on `email` (line 25) compare stored values exactly; on success
the row is appended. -/
def insert_user (db : DB) (u : UserRow) : Except AdapterError DB :=
  if db.users.any fun v => v.id == u.id then .error .integrityError
  else if db.users.any fun v => v.email == u.email then .error .integrityError
  else .ok { db with users := db.users ++ [u] }

/-- `create` (lines 110-115): `user_table(**create_dict)` raises
`TypeError` on an unknown keyword before the session is touched; otherwise
`add`, `commit` (resolving defaults and checking constraints; a failed
commit rolls back, leaving the store unchanged), `refresh`, and the
persisted entity is returned. -/
def create (a : Adapter) (db : DB) (create_dict : UserDict) (fid : Nat) :
    Except AdapterError UserRow × DB × List SessOp :=
  match create_dict.unknown_keys with
  | k :: _ => (.error (.typeError k), db, [])
  | [] =>
    match resolve_user create_dict fid with
    | .error e => (.error e, db, [SessOp.add, SessOp.commit])
    | .ok u =>
      match insert_user db u with
      | .error e => (.error e, db, [SessOp.add, SessOp.commit])
      | .ok db2 => (.ok u, db2, [SessOp.add, SessOp.commit, SessOp.refresh])

/-- The `setattr` loop of `update` (lines 120-121): fields named in the
mapping are overwritten, the rest keep their values.  (`setattr` never
raises on extra keys, so `unknown_keys` is ignored here.) -/
def apply_update (u : UserRow) (d : UserDict) : UserRow :=
  { id := d.id.getD u.id,
    email := d.email.getD u.email,
    hashed_password := d.hashed_password.getD u.hashed_password,
    is_active := d.is_active.getD u.is_active,
    is_superuser := d.is_superuser.getD u.is_superuser,
    is_verified := d.is_verified.getD u.is_verified }

/-- `update` (lines 117-125): overwrite the named fields on the entity,
`add`, `commit` (an UPDATE of the row whose id is the entity's original
id; primary-key and email-uniqueness violations against the other rows
fail the commit and roll back), `refresh`, return the entity. -/
def update (a : Adapter) (db : DB) (u : UserRow) (update_dict : UserDict) :
    Except AdapterError UserRow × DB × List SessOp :=
  if db.users.any fun v => v.id != u.id && v.id == (apply_update u update_dict).id then
    (.error .integrityError, db, [SessOp.add, SessOp.commit])
  else if db.users.any fun v =>
      v.id != u.id && v.email == (apply_update u update_dict).email then
    (.error .integrityError, db, [SessOp.add, SessOp.commit])
  else
    (.ok (apply_update u update_dict),
      { db with users :=
        db.users.map fun v => if v.id == u.id then apply_update u update_dict else v },
      [SessOp.add, SessOp.commit, SessOp.refresh])

/-- `delete` (lines 127-129): `session.delete(user)` then `commit`; the
DELETE removes the user row by primary key, and the `ondelete="cascade"`
foreign key (line 58) removes the oauth-account rows referencing it. -/
def delete (a : Adapter) (db : DB) (u : UserRow) : DB × List SessOp :=
  ({ users := db.users.filter fun v => v.id != u.id,
     oauth_accounts := db.oauth_accounts.filter fun acc => acc.user_id != u.id },
   [SessOp.delete, SessOp.commit])

/-- Flush-time resolution of a constructed oauth account (columns of
lines 44-58): `oauth_name`, `access_token`, `account_id`, `account_email`
are NOT NULL; `expires_at` and `refresh_token` default to NULL; the
identifier defaults to a fresh `fid`; `user_id` is set to the owning
user's id by the relationship append (line 139). -/
def resolve_oauth_account (d : OAuthDict) (fid : Nat) (uid : Nat) :
    Except AdapterError OAuthAccountRow :=
  match d.oauth_name, d.access_token, d.account_id, d.account_email with
  | some n, some t, some aid, some ae =>
      .ok { id := d.id.getD fid, oauth_name := n, access_token := t,
            expires_at := d.expires_at.getD none,
            refresh_token := d.refresh_token.getD none,
            account_id := aid, account_email := ae, user_id := uid }
  | _, _, _, _ => .error .integrityError

/-- `add_oauth_account` (lines 131-145): raises `NotImplementedError`
without an OAuth table; otherwise constructs the account (`TypeError` on
an unknown keyword), adds it, appends it to the user's collection, adds
the user, commits (constraint violations roll back), refreshes and returns
the user. -/
def add_oauth_account (a : Adapter) (db : DB) (u : UserRow)
    (create_dict : OAuthDict) (fid : Nat) :
    Except AdapterError UserRow × DB × List SessOp :=
  match a.oauth_account_table with
  | none => (.error .notImplementedError, db, [])
  | some _ =>
    match create_dict.unknown_keys with
    | k :: _ => (.error (.typeError k), db, [])
    | [] =>
      match resolve_oauth_account create_dict fid u.id with
      | .error e => (.error e, db, [SessOp.add, SessOp.add, SessOp.commit])
      | .ok acc =>
        if db.oauth_accounts.any fun b => b.id == acc.id then
          (.error .integrityError, db, [SessOp.add, SessOp.add, SessOp.commit])
        else if !(db.users.any fun v => v.id == u.id) then
          (.error .integrityError, db, [SessOp.add, SessOp.add, SessOp.commit])
        else
          (.ok u, { db with oauth_accounts := db.oauth_accounts ++ [acc] },
            [SessOp.add, SessOp.add, SessOp.commit, SessOp.refresh])

/-- The `setattr` loop of `update_oauth_account` (lines 153-154). -/
def apply_oauth_update (acc : OAuthAccountRow) (d : OAuthDict) : OAuthAccountRow :=
  { id := d.id.getD acc.id,
    oauth_name := d.oauth_name.getD acc.oauth_name,
    access_token := d.access_token.getD acc.access_token,
    expires_at := d.expires_at.getD acc.expires_at,
    refresh_token := d.refresh_token.getD acc.refresh_token,
    account_id := d.account_id.getD acc.account_id,
    account_email := d.account_email.getD acc.account_email,
    user_id := acc.user_id }

/-- `update_oauth_account` (lines 147-158): raises `NotImplementedError`
without an OAuth table; otherwise overwrites the named fields on the
account, adds it, commits (a primary-key collision with another row rolls
back), refreshes the user and returns the user. -/
def update_oauth_account (a : Adapter) (db : DB) (u : UserRow)
    (oauth_account : OAuthAccountRow) (update_dict : OAuthDict) :
    Except AdapterError UserRow × DB × List SessOp :=
  match a.oauth_account_table with
  | none => (.error .notImplementedError, db, [])
  | some _ =>
    if db.oauth_accounts.any fun b =>
        b.id != oauth_account.id && b.id == (apply_oauth_update oauth_account update_dict).id then
      (.error .integrityError, db, [SessOp.add, SessOp.commit])
    else
      (.ok u,
        { db with oauth_accounts :=
          db.oauth_accounts.map fun b =>
            if b.id == oauth_account.id then apply_oauth_update oauth_account update_dict
            else b },
        [SessOp.add, SessOp.commit, SessOp.refresh])

end SQLAlchemyUserDatabase

/-- Store states reachable from the empty store through the adapter's
mutating operations (failed operations leave the store unchanged, so only
the successful paths matter). -/
inductive Reachable : DB → Prop where
  | empty : Reachable DB.empty
  | create_ok (a : Adapter) (db : DB) (d : UserDict) (fid : Nat) (u : UserRow)
      (db2 : DB) (log : List SessOp) :
      Reachable db →
      SQLAlchemyUserDatabase.create a db d fid = (.ok u, db2, log) →
      Reachable db2
  | update_ok (a : Adapter) (db : DB) (u : UserRow) (d : UserDict)
      (u2 : UserRow) (db2 : DB) (log : List SessOp) :
      Reachable db →
      SQLAlchemyUserDatabase.update a db u d = (.ok u2, db2, log) →
      Reachable db2
  | delete_ok (a : Adapter) (db : DB) (u : UserRow) :
      Reachable db →
      Reachable (SQLAlchemyUserDatabase.delete a db u).1
  | add_oauth_ok (a : Adapter) (db : DB) (u : UserRow) (d : OAuthDict)
      (fid : Nat) (u2 : UserRow) (db2 : DB) (log : List SessOp) :
      Reachable db →
      SQLAlchemyUserDatabase.add_oauth_account a db u d fid = (.ok u2, db2, log) →
      Reachable db2
  | update_oauth_ok (a : Adapter) (db : DB) (u : UserRow)
      (acc : OAuthAccountRow) (d : OAuthDict) (u2 : UserRow) (db2 : DB)
      (log : List SessOp) :
      Reachable db →
      SQLAlchemyUserDatabase.update_oauth_account a db u acc d = (.ok u2, db2, log) →
      Reachable db2

/-- The uniqueness invariant maintained on the `user` table: the primary
key and the UNIQUE constraint on `email` (line 25) hold between any two
stored rows, comparing values exactly. -/
def UsersOK (db : DB) : Prop :=
  db.users.Pairwise fun x y => x.id ≠ y.id ∧ x.email ≠ y.email

/-- An example user row, as created from email and password only. -/
def exUser : UserRow :=
  { id := 1, email := "u@test.com", hashed_password := "x",
    is_active := true, is_superuser := false, is_verified := false }

/-- An example OAuth account row linked to `exUser`. -/
def exAccount : OAuthAccountRow :=
  { id := 1, oauth_name := "google", access_token := "t", expires_at := none,
    refresh_token := none, account_id := "sub1", account_email := "u@test.com",
    user_id := 1 }

/-- An adapter constructed without `oauth_account_table`. -/
def adapterNoOAuth : Adapter := { oauth_account_table := none }

/-- An adapter constructed with an `oauth_account_table`. -/
def adapterOAuth : Adapter := { oauth_account_table := some () }

/-- A create mapping giving only `email` and `hashed_password`. -/
def dictDefaults : UserDict :=
  { email := some "u@test.com", hashed_password := some "x" }

/-- The store holding exactly `exUser`. -/
def dbOne : DB := { users := [exUser], oauth_accounts := [] }

/-- The store holding `exUser` with its linked `exAccount`. -/
def dbLinked : DB := { users := [exUser], oauth_accounts := [exAccount] }

/-- A create mapping whose keys include one that is not a column. -/
def dictBadKey : UserDict :=
  { email := some "u@test.com", hashed_password := some "x",
    unknown_keys := ["favorite_color"] }

/-- An update mapping naming only `hashed_password`. -/
def dictNewPw : UserDict := { hashed_password := some "y" }

/-- `exUser` after the `dictNewPw` update. -/
def exUserNewPw : UserRow := { exUser with hashed_password := "y" }

/-- The store holding exactly `exUserNewPw`. -/
def dbOneNewPw : DB := { users := [exUserNewPw], oauth_accounts := [] }

/-- Create mapping with upper-case email "A@B.com". -/
def dictUpper : UserDict := { email := some "A@B.com", hashed_password := some "x" }

/-- Create mapping with lower-case email "a@b.com". -/
def dictLower : UserDict := { email := some "a@b.com", hashed_password := some "y" }

/-- The user created from `dictUpper`. -/
def userUpper : UserRow :=
  { id := 1, email := "A@B.com", hashed_password := "x",
    is_active := true, is_superuser := false, is_verified := false }

/-- The user created from `dictLower` on a store already holding
`userUpper`. -/
def userLower : UserRow :=
  { id := 2, email := "a@b.com", hashed_password := "y",
    is_active := true, is_superuser := false, is_verified := false }

/-- The store holding only `userUpper`. -/
def dbUpperOnly : DB := { users := [userUpper], oauth_accounts := [] }

/-- The store holding `userUpper` and `userLower`: two distinct users whose
emails differ only in letter case. -/
def dbCasePair : DB := { users := [userUpper, userLower], oauth_accounts := [] }

namespace SQLAlchemyUserDatabase

/-- Inversion of a successful user INSERT commit: the uniqueness checks
passed and the row was appended. -/
theorem insert_user_ok_elim (db : DB) (u : UserRow) (db2 : DB)
    (h : insert_user db u = .ok db2) :
    (db.users.any fun v => v.id == u.id) = false ∧
    (db.users.any fun v => v.email == u.email) = false ∧
    db2.users = db.users ++ [u] ∧ db2.oauth_accounts = db.oauth_accounts := by
  unfold insert_user at h
  split at h
  · simp at h
  · split at h
    · simp at h
    · rename_i h1 h2
      simp only [Except.ok.injEq] at h
      subst h
      exact ⟨by simpa using h1, by simpa using h2, rfl, rfl⟩

/-- Inversion of a successful `create`: no unknown keyword, the constructed
user resolved, and the INSERT committed. -/
theorem create_ok_elim (a : Adapter) (db : DB) (d : UserDict) (fid : Nat)
    (u : UserRow) (db2 : DB) (log : List SessOp)
    (h : create a db d fid = (.ok u, db2, log)) :
    d.unknown_keys = [] ∧ resolve_user d fid = .ok u ∧
    insert_user db u = .ok db2 := by
  unfold create at h
  split at h
  · simp at h
  · rename_i hk
    split at h
    · simp at h
    · rename_i u1 hr
      split at h
      · simp at h
      · rename_i db1 hi
        simp only [Prod.mk.injEq, Except.ok.injEq] at h
        obtain ⟨h1, h2, _⟩ := h
        subst h1; subst h2
        exact ⟨hk, hr, hi⟩

/-- Inversion of a successful `resolve_user`: the required columns were
present and each field of the row is the mapping's value or the default. -/
theorem resolve_user_ok_elim (d : UserDict) (fid : Nat) (u : UserRow)
    (h : resolve_user d fid = .ok u) :
    (∃ e, d.email = some e) ∧ (∃ hp, d.hashed_password = some hp) ∧
    u.id = d.id.getD fid ∧ u.email = d.email.getD "" ∧
    u.hashed_password = d.hashed_password.getD "" ∧
    u.is_active = d.is_active.getD true ∧
    u.is_superuser = d.is_superuser.getD false ∧
    u.is_verified = d.is_verified.getD false := by
  unfold resolve_user at h
  split at h
  · rename_i e hp he hhp
    simp only [Except.ok.injEq] at h
    subst h
    simp [he, hhp]
  · simp at h

/-- Inversion of a successful `update`: the commit-time checks passed, the
returned entity is the `setattr`-updated one, and the store has the row
rewritten in place. -/
theorem update_ok_elim (a : Adapter) (db : DB) (u : UserRow) (d : UserDict)
    (u2 : UserRow) (db2 : DB) (log : List SessOp)
    (h : update a db u d = (.ok u2, db2, log)) :
    (db.users.any fun v => v.id != u.id && v.id == (apply_update u d).id) = false ∧
    (db.users.any fun v => v.id != u.id && v.email == (apply_update u d).email) = false ∧
    u2 = apply_update u d ∧
    db2.users = db.users.map (fun v => if v.id == u.id then apply_update u d else v) ∧
    db2.oauth_accounts = db.oauth_accounts := by
  unfold update at h
  split at h
  · simp at h
  · split at h
    · simp at h
    · rename_i h1 h2
      simp only [Prod.mk.injEq, Except.ok.injEq] at h
      obtain ⟨hu, hdb, _⟩ := h
      subst hdb
      exact ⟨by simpa using h1, by simpa using h2, hu.symm, rfl, rfl⟩

/-- A successful `add_oauth_account` leaves the user table unchanged. -/
theorem add_oauth_ok_users (a : Adapter) (db : DB) (u : UserRow)
    (d : OAuthDict) (fid : Nat) (u2 : UserRow) (db2 : DB) (log : List SessOp)
    (h : add_oauth_account a db u d fid = (.ok u2, db2, log)) :
    db2.users = db.users := by
  unfold add_oauth_account at h
  split at h
  · simp at h
  · split at h
    · simp at h
    · split at h
      · simp at h
      · split at h
        · simp at h
        · split at h
          · simp at h
          · simp only [Prod.mk.injEq, Except.ok.injEq] at h
            obtain ⟨_, hdb, _⟩ := h
            subst hdb
            rfl

/-- A successful `update_oauth_account` leaves the user table unchanged. -/
theorem update_oauth_ok_users (a : Adapter) (db : DB) (u : UserRow)
    (acc : OAuthAccountRow) (d : OAuthDict) (u2 : UserRow) (db2 : DB)
    (log : List SessOp)
    (h : update_oauth_account a db u acc d = (.ok u2, db2, log)) :
    db2.users = db.users := by
  unfold update_oauth_account at h
  split at h
  · simp at h
  · split at h
    · simp at h
    · simp only [Prod.mk.injEq, Except.ok.injEq] at h
      obtain ⟨_, hdb, _⟩ := h
      subst hdb
      rfl

end SQLAlchemyUserDatabase

/-- Head of a filtered list when a unique element satisfies the predicate. -/
theorem head_filter_eq_of_mem_uniq {α : Type} {p : α → Bool} (l : List α)
    (u : α) (hu : u ∈ l) (hp : p u = true)
    (huniq : ∀ v ∈ l, p v = true → v = u) :
    (l.filter p).head? = some u := by
  induction l with
  | nil => cases hu
  | cons a t ih =>
    by_cases hpa : p a = true
    · have ha : a = u := huniq a (List.mem_cons_self a t) hpa
      subst ha
      simp [List.filter_cons, hpa]
    · have hut : u ∈ t := by
        rcases List.mem_cons.mp hu with h1 | h1
        · exact absurd (h1 ▸ hp) hpa
        · exact h1
      have huniq2 : ∀ v ∈ t, p v = true → v = u := fun v hv hpv =>
        huniq v (List.mem_cons_of_mem a hv) hpv
      simp only [List.filter_cons, hpa, if_false, Bool.false_eq_true]
      exact ih hut huniq2

/-- The head of a filtered list is a member satisfying the predicate. -/
theorem head_filter_mem {α : Type} {p : α → Bool} (l : List α) (w : α)
    (h : (l.filter p).head? = some w) : w ∈ l ∧ p w = true := by
  cases hf : l.filter p with
  | nil => rw [hf] at h; cases h
  | cons b t =>
    rw [hf] at h
    simp only [List.head?_cons, Option.some.injEq] at h
    subst h
    have hb : b ∈ l.filter p := by
      rw [hf]; exact List.mem_cons_self b t
    exact List.mem_filter.mp hb

namespace SQLAlchemyUserDatabase

/-- `_get_user` returns exactly the head of the result rows. -/
theorem get_user_eq_head (rows : List UserRow) : get_user rows = rows.head? := by
  unfold get_user
  cases rows.head? <;> rfl

end SQLAlchemyUserDatabase

/-- C7: for every query result, `_get_user` returns `None` exactly when the
query yields zero rows, and otherwise returns the entity of the first row;
it is a total function (no error path), so multiple matching rows are not
distinguished from a single one. -/
theorem get_user_first_row_semantics :
    (∀ rows : List UserRow,
      SQLAlchemyUserDatabase.get_user rows = none ↔ rows = []) ∧
    (∀ (r : UserRow) (rest : List UserRow),
      SQLAlchemyUserDatabase.get_user (r :: rest) = some r) := by
  constructor
  · intro rows
    cases rows <;> simp [SQLAlchemyUserDatabase.get_user]
  · intro r rest
    rfl

/-- C5: `delete` followed by `get` on the deleted entity's identifier
returns not-found. -/
theorem delete_get_not_found (a : Adapter) (db : DB) (u : UserRow) :
    (SQLAlchemyUserDatabase.get a (SQLAlchemyUserDatabase.delete a db u).1 u.id).1 =
      none := by
  have h : ((db.users.filter fun v => v.id != u.id).filter fun v => v.id == u.id) =
      [] := by
    rw [List.filter_filter]
    refine List.filter_eq_nil_iff.mpr ?_
    intro v hv
    by_cases hc : v.id = u.id <;> simp [hc]
  simp [SQLAlchemyUserDatabase.get, SQLAlchemyUserDatabase.delete,
    SQLAlchemyUserDatabase.get_user, h]

/-- C3: on an adapter constructed without an OAuth table, each of
`get_by_oauth_account`, `add_oauth_account` and `update_oauth_account`
raises `NotImplementedError` for all inputs, with no session interaction
(empty log) and the store unchanged. -/
theorem oauth_ops_unsupported_without_table (a : Adapter) (db : DB)
    (oauth account_id : String) (u : UserRow) (cd : OAuthDict) (fid : Nat)
    (acc : OAuthAccountRow) (ud : OAuthDict)
    (h : a.oauth_account_table = none) :
    SQLAlchemyUserDatabase.get_by_oauth_account a db oauth account_id =
      (.error .notImplementedError, []) ∧
    SQLAlchemyUserDatabase.add_oauth_account a db u cd fid =
      (.error .notImplementedError, db, []) ∧
    SQLAlchemyUserDatabase.update_oauth_account a db u acc ud =
      (.error .notImplementedError, db, []) := by
  refine ⟨?_, ?_, ?_⟩ <;>
    simp [SQLAlchemyUserDatabase.get_by_oauth_account,
      SQLAlchemyUserDatabase.add_oauth_account,
      SQLAlchemyUserDatabase.update_oauth_account, h]

/-- Witness for C3 at a concrete adapter and concrete inputs. -/
theorem oauth_ops_unsupported_without_table_witness :
    SQLAlchemyUserDatabase.get_by_oauth_account adapterNoOAuth DB.empty
      "google" "sub1" = (.error .notImplementedError, []) ∧
    SQLAlchemyUserDatabase.add_oauth_account adapterNoOAuth DB.empty exUser {} 1 =
      (.error .notImplementedError, DB.empty, []) ∧
    SQLAlchemyUserDatabase.update_oauth_account adapterNoOAuth DB.empty exUser
      exAccount {} = (.error .notImplementedError, DB.empty, []) :=
  oauth_ops_unsupported_without_table adapterNoOAuth DB.empty "google" "sub1"
    exUser {} 1 exAccount {} rfl

/-- C10: a create mapping with a key that is not a column of the user table
makes `create` raise `TypeError` naming that key, with no session
interaction (nothing added, no commit) and the store unchanged. -/
theorem create_unknown_key_atomic_failure (a : Adapter) (db : DB)
    (d : UserDict) (fid : Nat) (k : String) (ks : List String)
    (h : d.unknown_keys = k :: ks) :
    SQLAlchemyUserDatabase.create a db d fid = (.error (.typeError k), db, []) := by
  simp [SQLAlchemyUserDatabase.create, h]

/-- Witness for C10 at a concrete mapping with key "favorite_color". -/
theorem create_unknown_key_atomic_failure_witness :
    SQLAlchemyUserDatabase.create adapterNoOAuth DB.empty dictBadKey 1 =
      (.error (.typeError "favorite_color"), DB.empty, []) :=
  create_unknown_key_atomic_failure adapterNoOAuth DB.empty dictBadKey 1
    "favorite_color" [] rfl

/-- C9: a create mapping that omits the three boolean flags yields a user
with `is_active = true`, `is_superuser = false`, `is_verified = false`. -/
theorem create_default_flags (a : Adapter) (db : DB) (d : UserDict) (fid : Nat)
    (u : UserRow) (db2 : DB) (log : List SessOp)
    (ha : d.is_active = none) (hs : d.is_superuser = none)
    (hv : d.is_verified = none)
    (h : SQLAlchemyUserDatabase.create a db d fid = (.ok u, db2, log)) :
    u.is_active = true ∧ u.is_superuser = false ∧ u.is_verified = false := by
  obtain ⟨-, hr, -⟩ := SQLAlchemyUserDatabase.create_ok_elim a db d fid u db2 log h
  obtain ⟨-, -, -, -, -, h1, h2, h3⟩ :=
    SQLAlchemyUserDatabase.resolve_user_ok_elim d fid u hr
  simp [h1, h2, h3, ha, hs, hv]

/-- Witness for C9: create from email and password only, look the user up
by upper-cased email, and read off the three default flags. -/
theorem create_default_flags_witness :
    (SQLAlchemyUserDatabase.get_by_email adapterNoOAuth dbOne "U@TEST.COM").1 =
      some exUser ∧
    (exUser.is_active = true ∧ exUser.is_superuser = false ∧
      exUser.is_verified = false) :=
  ⟨rfl,
   create_default_flags adapterNoOAuth DB.empty dictDefaults 1 exUser dbOne
     [SessOp.add, SessOp.commit, SessOp.refresh] rfl rfl rfl rfl⟩

/-- C1: a successful `create` followed by `get` on the created entity's
identifier returns that same entity (all field values identical). -/
theorem create_get_roundtrip (a : Adapter) (db : DB) (d : UserDict) (fid : Nat)
    (u : UserRow) (db2 : DB) (log : List SessOp)
    (h : SQLAlchemyUserDatabase.create a db d fid = (.ok u, db2, log)) :
    (SQLAlchemyUserDatabase.get a db2 u.id).1 = some u := by
  obtain ⟨-, -, hi⟩ := SQLAlchemyUserDatabase.create_ok_elim a db d fid u db2 log h
  obtain ⟨hid, -, husers, -⟩ := SQLAlchemyUserDatabase.insert_user_ok_elim db u db2 hi
  have h1 : db.users.filter (fun v => v.id == u.id) = [] := by
    refine List.filter_eq_nil_iff.mpr ?_
    intro v hv
    have := List.any_eq_false.mp hid v hv
    simpa using this
  have hfilter : db2.users.filter (fun v => v.id == u.id) = [u] := by
    rw [husers, List.filter_append, h1]
    simp
  simp [SQLAlchemyUserDatabase.get, hfilter, SQLAlchemyUserDatabase.get_user]

/-- Witness for C1: create `exUser` on the empty store and fetch it back. -/
theorem create_get_roundtrip_witness :
    (SQLAlchemyUserDatabase.get adapterNoOAuth dbOne exUser.id).1 = some exUser :=
  create_get_roundtrip adapterNoOAuth DB.empty dictDefaults 1 exUser dbOne
    [SessOp.add, SessOp.commit, SessOp.refresh] rfl

/-- C4: a successful `update` overwrites exactly the fields named in the
mapping with the given values, and every field not named keeps its prior
value, on the returned entity. -/
theorem update_partial_isolation (a : Adapter) (db : DB) (u : UserRow)
    (d : UserDict) (u2 : UserRow) (db2 : DB) (log : List SessOp)
    (h : SQLAlchemyUserDatabase.update a db u d = (.ok u2, db2, log)) :
    (∀ x, d.id = some x → u2.id = x) ∧ (d.id = none → u2.id = u.id) ∧
    (∀ x, d.email = some x → u2.email = x) ∧
    (d.email = none → u2.email = u.email) ∧
    (∀ x, d.hashed_password = some x → u2.hashed_password = x) ∧
    (d.hashed_password = none → u2.hashed_password = u.hashed_password) ∧
    (∀ x, d.is_active = some x → u2.is_active = x) ∧
    (d.is_active = none → u2.is_active = u.is_active) ∧
    (∀ x, d.is_superuser = some x → u2.is_superuser = x) ∧
    (d.is_superuser = none → u2.is_superuser = u.is_superuser) ∧
    (∀ x, d.is_verified = some x → u2.is_verified = x) ∧
    (d.is_verified = none → u2.is_verified = u.is_verified) := by
  obtain ⟨-, -, hu2, -, -⟩ :=
    SQLAlchemyUserDatabase.update_ok_elim a db u d u2 db2 log h
  subst hu2
  refine ⟨?_, ?_, ?_, ?_, ?_, ?_, ?_, ?_, ?_, ?_, ?_, ?_⟩ <;>
    first
      | (intro x hx; simp [SQLAlchemyUserDatabase.apply_update, hx])
      | (intro hx; simp [SQLAlchemyUserDatabase.apply_update, hx])

/-- Witness for C4: update only the hashed password of `exUser`; the
password is overwritten and the email is untouched. -/
theorem update_partial_isolation_witness :
    exUserNewPw.hashed_password = "y" ∧ exUserNewPw.email = exUser.email :=
  ⟨(update_partial_isolation adapterNoOAuth dbOne exUser dictNewPw exUserNewPw
      dbOneNewPw [SessOp.add, SessOp.commit, SessOp.refresh] rfl).2.2.2.2.1 "y" rfl,
   (update_partial_isolation adapterNoOAuth dbOne exUser dictNewPw exUserNewPw
      dbOneNewPw [SessOp.add, SessOp.commit, SessOp.refresh] rfl).2.2.2.1 rfl⟩

/-- The store with two users whose emails differ only in case is reachable:
create "A@B.com", then create "a@b.com" (the UNIQUE constraint compares
exact strings, so the second create commits). -/
theorem reachable_dbCasePair : Reachable dbCasePair :=
  Reachable.create_ok adapterNoOAuth dbUpperOnly dictLower 2 userLower dbCasePair
    [SessOp.add, SessOp.commit, SessOp.refresh]
    (Reachable.create_ok adapterNoOAuth DB.empty dictUpper 1 userUpper dbUpperOnly
      [SessOp.add, SessOp.commit, SessOp.refresh] Reachable.empty rfl)
    rfl

/-- Counterexample to C2 as stated: in the reachable store holding both
"A@B.com" and "a@b.com", the stored user `userLower` lower-matches the
query "a@b.com", yet `get_by_email` does not return it - it returns the
first matching row, `userUpper`. -/
theorem get_by_email_case_counterexample :
    Reachable dbCasePair ∧ userLower ∈ dbCasePair.users ∧
    func.lower userLower.email = func.lower "a@b.com" ∧
    (SQLAlchemyUserDatabase.get_by_email adapterNoOAuth dbCasePair "a@b.com").1 ≠
      some userLower ∧
    (SQLAlchemyUserDatabase.get_by_email adapterNoOAuth dbCasePair "a@b.com").1 =
      some userUpper :=
  ⟨reachable_dbCasePair, by decide, by decide, by decide, by decide⟩

/-- C2 (amended): `get_by_email` returns a stored user whose lower-cased
email equals the lower-cased query, and when exactly one stored user
lower-matches the query, it returns precisely that user. -/
theorem get_by_email_unique_match (a : Adapter) (db : DB) (q : String)
    (u : UserRow) (hu : u ∈ db.users)
    (hmatch : func.lower u.email = func.lower q)
    (huniq : ∀ v ∈ db.users, func.lower v.email = func.lower q → v = u) :
    (SQLAlchemyUserDatabase.get_by_email a db q).1 = some u ∧
    ∀ w, (SQLAlchemyUserDatabase.get_by_email a db q).1 = some w →
      w ∈ db.users ∧ func.lower w.email = func.lower q := by
  have hhead :
      (db.users.filter fun v => func.lower v.email == func.lower q).head? =
        some u := by
    apply head_filter_eq_of_mem_uniq _ u hu
    · simp [hmatch]
    · intro v hv hpv
      exact huniq v hv (by simpa using hpv)
  constructor
  · simp [SQLAlchemyUserDatabase.get_by_email,
      SQLAlchemyUserDatabase.get_user_eq_head, hhead]
  · intro w hw
    have hw2 :
        (db.users.filter fun v => func.lower v.email == func.lower q).head? =
          some w := by
      simpa [SQLAlchemyUserDatabase.get_by_email,
        SQLAlchemyUserDatabase.get_user_eq_head] using hw
    obtain ⟨h1, h2⟩ := head_filter_mem _ w hw2
    exact ⟨h1, by simpa using h2⟩

/-- Witness for C2 (amended): the single stored user "u@test.com" is
returned for the upper-cased query. -/
theorem get_by_email_unique_match_witness :
    (SQLAlchemyUserDatabase.get_by_email adapterNoOAuth dbOne "U@TEST.COM").1 =
      some exUser :=
  (get_by_email_unique_match adapterNoOAuth dbOne "U@TEST.COM" exUser
    (by decide) (by decide) (by decide)).1

/-- C6: deleting a user with a linked OAuth account removes the linked
account rows (cascade), so looking the account's
`(oauth_name, account_id)` pair up afterwards returns not-found - under
the data-model invariant that the pair identifies accounts of that user
only. -/
theorem delete_cascades_oauth_lookup (a : Adapter) (db : DB) (u : UserRow)
    (acc : OAuthAccountRow) (hacc : acc ∈ db.oauth_accounts)
    (hlink : acc.user_id = u.id)
    (huniq : ∀ b ∈ db.oauth_accounts, b.oauth_name = acc.oauth_name →
      b.account_id = acc.account_id → b.user_id = u.id)
    (ht : a.oauth_account_table = some ()) :
    (∀ b ∈ (SQLAlchemyUserDatabase.delete a db u).1.oauth_accounts,
      b.user_id ≠ u.id) ∧
    (SQLAlchemyUserDatabase.get_by_oauth_account a
        (SQLAlchemyUserDatabase.delete a db u).1 acc.oauth_name acc.account_id).1 =
      .ok none := by
  have hacc2 : (SQLAlchemyUserDatabase.delete a db u).1.oauth_accounts =
      db.oauth_accounts.filter fun b => b.user_id != u.id := rfl
  have hgone : ∀ b ∈ (SQLAlchemyUserDatabase.delete a db u).1.oauth_accounts,
      b.user_id ≠ u.id := by
    intro b hb
    rw [hacc2] at hb
    have h2 := (List.mem_filter.mp hb).2
    simpa using h2
  refine ⟨hgone, ?_⟩
  have hrows : ((SQLAlchemyUserDatabase.delete a db u).1.users.flatMap fun v =>
      ((SQLAlchemyUserDatabase.delete a db u).1.oauth_accounts.filter fun b =>
        b.user_id == v.id && b.oauth_name == acc.oauth_name &&
          b.account_id == acc.account_id).map fun _ => v) = [] := by
    refine List.flatMap_eq_nil_iff.mpr ?_
    intro v hv
    rw [List.map_eq_nil_iff]
    refine List.filter_eq_nil_iff.mpr ?_
    intro b hb hmatch
    simp only [Bool.and_eq_true, beq_iff_eq] at hmatch
    obtain ⟨⟨-, hname⟩, haid⟩ := hmatch
    have hmem : b ∈ db.oauth_accounts := by
      rw [hacc2] at hb
      exact (List.mem_filter.mp hb).1
    exact hgone b hb (huniq b hmem hname haid)
  have hfin : (SQLAlchemyUserDatabase.get_by_oauth_account a
      (SQLAlchemyUserDatabase.delete a db u).1 acc.oauth_name acc.account_id).1 =
      Except.ok (SQLAlchemyUserDatabase.get_user
        ((SQLAlchemyUserDatabase.delete a db u).1.users.flatMap fun v =>
          ((SQLAlchemyUserDatabase.delete a db u).1.oauth_accounts.filter fun b =>
            b.user_id == v.id && b.oauth_name == acc.oauth_name &&
              b.account_id == acc.account_id).map fun _ => v)) := by
    simp only [SQLAlchemyUserDatabase.get_by_oauth_account, ht]
  rw [hfin, hrows]
  rfl

/-- Witness for C6: delete `exUser`, which owns `exAccount`; looking up
("google", "sub1") afterwards returns not-found. -/
theorem delete_cascades_oauth_lookup_witness :
    (SQLAlchemyUserDatabase.get_by_oauth_account adapterOAuth
        (SQLAlchemyUserDatabase.delete adapterOAuth dbLinked exUser).1
        exAccount.oauth_name exAccount.account_id).1 = .ok none :=
  (delete_cascades_oauth_lookup adapterOAuth dbLinked exUser exAccount
    (by decide) rfl (by decide) rfl).2

/-- Rewriting the row with a given id preserves the pairwise uniqueness
relation, provided the new row collides with none of the other rows. -/
theorem pairwise_map_update (l : List UserRow) (uid : Nat) (u2 : UserRow)
    (hl : l.Pairwise fun x y => x.id ≠ y.id ∧ x.email ≠ y.email)
    (hothers : ∀ v ∈ l, v.id ≠ uid → v.id ≠ u2.id ∧ v.email ≠ u2.email) :
    (l.map fun v => if v.id == uid then u2 else v).Pairwise
      fun x y => x.id ≠ y.id ∧ x.email ≠ y.email := by
  induction l with
  | nil => simp
  | cons a t ih =>
    rw [List.map_cons]
    rw [List.pairwise_cons] at hl
    obtain ⟨ha, ht⟩ := hl
    have hothers_t : ∀ v ∈ t, v.id ≠ uid → v.id ≠ u2.id ∧ v.email ≠ u2.email :=
      fun v hv => hothers v (List.mem_cons_of_mem a hv)
    refine List.pairwise_cons.mpr ⟨?_, ih ht hothers_t⟩
    intro b hb
    obtain ⟨c, hc, hbc⟩ := List.mem_map.mp hb
    subst hbc
    by_cases hau : a.id = uid
    · by_cases hcu : c.id = uid
      · exact absurd (hau.trans hcu.symm) (ha c hc).1
      · have h1 := hothers c (List.mem_cons_of_mem a hc) hcu
        simp only [hau, hcu, beq_self_eq_true, if_true, beq_iff_eq, if_neg hcu]
        exact ⟨Ne.symm h1.1, Ne.symm h1.2⟩
    · by_cases hcu : c.id = uid
      · have h1 := hothers a (List.mem_cons_self a t) hau
        simp only [hcu, beq_self_eq_true, if_true, beq_iff_eq, if_neg hau]
        exact h1
      · simp only [beq_iff_eq, if_neg hau, if_neg hcu]
        exact ha c hc

/-- Every reachable store satisfies the user-table uniqueness invariant:
distinct rows have distinct ids and distinct (exact) emails. -/
theorem reachable_usersOK (db : DB) (h : Reachable db) : UsersOK db := by
  induction h with
  | empty =>
    simp [UsersOK, DB.empty]
  | create_ok a db d fid u db2 log hprev hc ih =>
    obtain ⟨-, -, hi⟩ := SQLAlchemyUserDatabase.create_ok_elim a db d fid u db2 log hc
    obtain ⟨hid, hemail, husers, -⟩ :=
      SQLAlchemyUserDatabase.insert_user_ok_elim db u db2 hi
    unfold UsersOK at ih ⊢
    rw [husers]
    refine List.pairwise_append.mpr ⟨ih, List.pairwise_singleton _ _, ?_⟩
    intro x hx b hb
    simp only [List.mem_singleton] at hb
    subst hb
    constructor
    · have := List.any_eq_false.mp hid x hx
      simpa using this
    · have := List.any_eq_false.mp hemail x hx
      simpa using this
  | update_ok a db u d u2 db2 log hprev hu ih =>
    obtain ⟨h1, h2, -, husers, -⟩ :=
      SQLAlchemyUserDatabase.update_ok_elim a db u d u2 db2 log hu
    unfold UsersOK at ih ⊢
    rw [husers]
    apply pairwise_map_update db.users u.id (SQLAlchemyUserDatabase.apply_update u d) ih
    intro v hv hvne
    constructor
    · have := List.any_eq_false.mp h1 v hv
      simp only [Bool.and_eq_true, bne_iff_ne, ne_eq, beq_iff_eq, not_and] at this
      exact this hvne
    · have := List.any_eq_false.mp h2 v hv
      simp only [Bool.and_eq_true, bne_iff_ne, ne_eq, beq_iff_eq, not_and] at this
      exact this hvne
  | delete_ok a db u hprev ih =>
    unfold UsersOK at ih ⊢
    exact List.Pairwise.filter _ ih
  | add_oauth_ok a db u d fid u2 db2 log hprev hc ih =>
    unfold UsersOK at ih ⊢
    rw [SQLAlchemyUserDatabase.add_oauth_ok_users a db u d fid u2 db2 log hc]
    exact ih
  | update_oauth_ok a db u acc d u2 db2 log hprev hc ih =>
    unfold UsersOK at ih ⊢
    rw [SQLAlchemyUserDatabase.update_oauth_ok_users a db u acc d u2 db2 log hc]
    exact ih

/-- Counterexample to C8 as stated: the store holding both "A@B.com" and
"a@b.com" is reachable (the second create succeeds), and its two distinct
users have emails that agree after lower-casing. -/
theorem email_case_unique_counterexample :
    Reachable dbCasePair ∧ userUpper ∈ dbCasePair.users ∧
    userLower ∈ dbCasePair.users ∧ userUpper ≠ userLower ∧
    func.lower userUpper.email = func.lower userLower.email :=
  ⟨reachable_dbCasePair, by decide, by decide, by decide, by decide⟩

/-- C8 (amended): the stored set of users is kept exactly (case-sensitively)
unique on email: in every reachable store two distinct stored users have
different email strings, and creating a user whose email is exactly equal
to a stored user's email fails. -/
theorem email_exact_unique_invariant :
    (∀ db : DB, Reachable db → ∀ u ∈ db.users, ∀ v ∈ db.users, u ≠ v →
      u.email ≠ v.email) ∧
    (∀ (a : Adapter) (db : DB) (d : UserDict) (fid : Nat) (e : String),
      d.email = some e → (∃ v ∈ db.users, v.email = e) →
      ∀ (u : UserRow) (db2 : DB) (log : List SessOp),
        SQLAlchemyUserDatabase.create a db d fid ≠ (.ok u, db2, log)) := by
  constructor
  · intro db h u hu v hv hne
    have hOK := reachable_usersOK db h
    have hP : db.users.Pairwise fun x y => x.email ≠ y.email :=
      hOK.imp fun hxy => hxy.2
    have hsymm : Symmetric fun x y : UserRow => x.email ≠ y.email :=
      fun x y hxy => Ne.symm hxy
    exact List.Pairwise.forall hsymm hP hu hv hne
  · rintro a db d fid e he ⟨v, hv, hve⟩ u db2 log hc
    obtain ⟨-, hr, hi⟩ := SQLAlchemyUserDatabase.create_ok_elim a db d fid u db2 log hc
    obtain ⟨-, -, -, hue, -⟩ := SQLAlchemyUserDatabase.resolve_user_ok_elim d fid u hr
    rw [he] at hue
    simp only [Option.getD_some] at hue
    obtain ⟨-, hemail, -⟩ := SQLAlchemyUserDatabase.insert_user_ok_elim db u db2 hi
    have hne := List.any_eq_false.mp hemail v hv
    simp only [beq_iff_eq] at hne
    exact hne (hve.trans hue.symm)

/-- Witness for C8 (amended): in the reachable two-user store the two
distinct users have different exact emails. -/
theorem email_exact_unique_invariant_witness :
    userUpper.email ≠ userLower.email :=
  email_exact_unique_invariant.1 dbCasePair reachable_dbCasePair userUpper
    (by decide) userLower (by decide) (by decide)
